import Mathlib

/-!
# OneNote Flashcards — verification of the client spaced-repetition engine

A shallow embedding, in Lean 4, of the scheduling, merge, study-session and
statistics logic of the browser client (the large client script of the
repository).  JavaScript's `undefined` is modelled by `Option`, `null` inside
a defined field by a nested `Option`, and a JavaScript number that may be
`NaN` by `JsNum`.  Floating-point arithmetic on ease factors is modelled with
exact rationals: every constant involved (`2.5`, `0.85`, `1.3`, `0.6`, `0.2`)
is used only through multiplications, subtractions, `max` and `ceil`, and the
claims under study compare the code's formulas with the specification's
formulas, which use the same real numbers.
-/

namespace ONF

/-- A JavaScript number that may be `NaN` (needed for `reviewCount`, where
`undefined++` produces `NaN`). -/
inductive JsNum where
  | nan : JsNum
  | num : Int → JsNum
deriving DecidableEq, Repr

/-- JavaScript `x || 0` on a possibly-absent number: `undefined`, `NaN` and
`0` are falsy and give `0`; any other number is kept. -/
def jsNumOrZero : Option JsNum → JsNum
  | none => .num 0
  | some .nan => .num 0
  | some (.num n) => .num n

/-- JavaScript `x++` on a possibly-absent number: incrementing `undefined`
or `NaN` produces `NaN`. -/
def jsIncr : Option JsNum → JsNum
  | none => .nan
  | some .nan => .nan
  | some (.num n) => .num (n + 1)

/-- A flashcard as stored in `allFlashcards`.  `none` on a field means the
property is absent (`undefined`).  `due` is `undefined`, `null`
(`some none`) or a date string, modelled by its parsed timestamp in
milliseconds (`some (some t)`); date strings are never empty, so a present
date is always truthy. -/
structure Card where
  id : Option String := none
  question : String
  answer : String := ""
  interval : Option Int := none
  ease : Option Rat := none
  due : Option (Option Nat) := none
  reviewCount : Option JsNum := none
  tags : Option (List String) := none
  suspended : Option Bool := none
deriving DecidableEq, Repr

/-! ## Scheduler constants (top of the client script) -/

def EASE_FACTOR_DEFAULT : Rat := 5/2
def EASE_MODIFIER_HARD : Rat := 85/100
def EASE_MODIFIER_GOOD : Rat := 1
def EASE_MODIFIER_EASY : Rat := 13/10
def INTERVAL_MODIFIER : Rat := 1
def NEW_INTERVAL_HARD : Rat := 6/10
def MIN_INTERVAL : Int := 1
def MAX_INTERVAL : Int := 365 * 4

/-- One day in milliseconds (the due date advances by `newInterval` days). -/
def dayMs : Nat := 86400000

/-- The `switch (rating)` of `applySpacedRepetition`: given the (initialised)
interval and ease, the new interval and ease, or `none` when no `case`
matches (the `switch` has no `default`, leaving both `newInterval` and
`newEase` as `undefined`). -/
def ratingSwitch (rating : String) (interval : Int) (ease : Rat) :
    Option (Int × Rat) :=
  match rating with
  | "again" => some (1, max (13/10) (ease - 2/10))
  | "hard" =>
      some ((if interval = 0 then 1
             else max 2 (Int.ceil (interval * NEW_INTERVAL_HARD))),
            max (13/10) (ease * EASE_MODIFIER_HARD))
  | "good" =>
      some ((if interval = 0 then 1
             else if interval = 1 then 3
             else Int.ceil (interval * ease * INTERVAL_MODIFIER)),
            ease * EASE_MODIFIER_GOOD)
  | "easy" =>
      some ((if interval = 0 then 3
             else if interval = 1 then 7
             else Int.ceil (interval * ease * EASE_MODIFIER_EASY * INTERVAL_MODIFIER)),
            ease * EASE_MODIFIER_EASY)
  | _ => none

/-- `applySpacedRepetition(card, rating)`.

* `if (!card.interval) card.interval = 0` — falsy (`undefined` or `0`)
  intervals become `0`;
* `if (!card.ease) card.ease = EASE_FACTOR_DEFAULT` — falsy ease becomes 2.5;
* `if (!card.reviewCount === undefined) card.reviewCount = 0` — the negation
  binds first, so a boolean is compared to `undefined`: the condition is
  always false and this initialisation NEVER runs;
* `card.reviewCount++` — incrementing an absent `reviewCount` yields `NaN`;
* when the `switch` matched, the new interval is clamped to
  `[MIN_INTERVAL, MAX_INTERVAL]` and the due date is set `newInterval` days
  ahead;
* when it did not match (unrecognised rating), the clamp propagates `NaN`
  into `card.interval`, `card.ease` becomes `undefined`, and
  `dueDate.toISOString()` on the resulting invalid date throws a
  `RangeError`, so the call never returns normally; the model reports the
  thrown error (the `NaN` interval and `undefined` ease written just before
  the throw are not values of a well-typed scheduling state).

`intervalInit` is the interval after the falsy-initialisation
`if (!card.interval) card.interval = 0`. -/
def intervalInit (card : Card) : Int :=
  match card.interval with
  | none => 0
  | some n => if n = 0 then 0 else n

/-- `if (!card.ease) card.ease = EASE_FACTOR_DEFAULT`: the ease used by the
switch, after the falsy-initialisation. -/
def easeInit (card : Card) : Rat :=
  match card.ease with
  | none => EASE_FACTOR_DEFAULT
  | some e => if e = 0 then EASE_FACTOR_DEFAULT else e

def applySpacedRepetition (card : Card) (rating : String) (now : Nat) :
    Except String Card :=
  let reviewCount1 : JsNum := jsIncr card.reviewCount
  match ratingSwitch rating (intervalInit card) (easeInit card) with
  | none => .error "RangeError: Invalid time value"
  | some (newInterval, newEase) =>
      let clamped : Int := min MAX_INTERVAL (max MIN_INTERVAL newInterval)
      .ok { card with
              interval := some clamped
              ease := some newEase
              reviewCount := some reviewCount1
              due := some (some (now + clamped.toNat * dayMs)) }

/-! ## The specification's rating table (for the refinement claim)

`specRatingTable` is written from the specification's words, not from the
code: it is compared with `ratingSwitch`/`applySpacedRepetition` in the
refinement theorem for claim C1. -/

/-- The rating table exactly as the specification states it:
`again` gives `interval' = 1`, `ease' = max(1.3, ease - 0.2)`;
`hard` gives `interval' = 1` when `interval == 0`, else
`max(2, ceil(interval * 0.6))`, and `ease' = max(1.3, ease * 0.85)`;
`good` gives `interval' = 1` when `interval == 0`, `3` when `interval == 1`,
else `ceil(interval * ease)`, with ease unchanged;
`easy` gives `interval' = 3` when `interval == 0`, `7` when `interval == 1`,
else `ceil(interval * ease * 1.3)`, and `ease' = ease * 1.3`.
The interval result is then clamped to `[1, 1460]`. -/
def specRatingTable (rating : String) (interval : Int) (ease : Rat) :
    Option (Int × Rat) :=
  let pair : Option (Int × Rat) :=
    match rating with
    | "again" => some (1, max (13/10) (ease - 2/10))
    | "hard" => some ((if interval = 0 then 1
                       else max 2 (Int.ceil ((interval : Rat) * (6/10)))),
                      max (13/10) (ease * (85/100)))
    | "good" => some ((if interval = 0 then 1
                       else if interval = 1 then 3
                       else Int.ceil (interval * ease)), ease)
    | "easy" => some ((if interval = 0 then 3
                       else if interval = 1 then 7
                       else Int.ceil (interval * ease * (13/10))),
                      ease * (13/10))
    | _ => none
  pair.map (fun p => (min 1460 (max 1 p.1), p.2))

/-! ## Card-store merge (`loadFlashcards`) -/

/-- The lookup object `existingCardsByQuestion`: local cards are indexed by
question (`if (card && card.question)` skips cards with an empty/absent
question), later cards overwriting earlier ones with the same question;
looking up an incoming card's question returns the stored card, if any. -/
def existingCardsByQuestion (cards : List Card) (q : String) : Option Card :=
  cards.foldl
    (fun acc c => if c.question ≠ "" ∧ c.question = q then some c else acc)
    none

/-- The match-found branch of the merge: the incoming (server) card keeps its
own scheduling fields when they are present (`!== undefined`), and falls back
to the local card's value with a `|| default` guard otherwise
(`serverCard.f = serverCard.f !== undefined ? serverCard.f : local.f || d`;
for `tags` the code uses `serverCard.tags || local.tags || []`, and an array
is always truthy). -/
def mergeMatched (lc sc : Card) : Card :=
  { sc with
      interval := some (match sc.interval with
        | some v => v
        | none => match lc.interval with
          | none => 0
          | some n => if n = 0 then 0 else n)
      ease := some (match sc.ease with
        | some v => v
        | none => match lc.ease with
          | none => EASE_FACTOR_DEFAULT
          | some e => if e = 0 then EASE_FACTOR_DEFAULT else e)
      due := some (match sc.due with
        | some v => v
        | none => match lc.due with
          | some (some t) => some t
          | _ => none)
      reviewCount := some (match sc.reviewCount with
        | some v => v
        | none => jsNumOrZero lc.reviewCount)
      tags := some (match sc.tags with
        | some t => t
        | none => lc.tags.getD [])
      suspended := some (match sc.suspended with
        | some b => b
        | none => lc.suspended.getD false) }

/-- The no-match branch (and the new-page / first-load path): the incoming
card's scheduling fields are initialised with `|| default` defaults
(`card.f = card.f || d`). -/
def initCard (sc : Card) : Card :=
  { sc with
      interval := some (match sc.interval with
        | none => 0
        | some n => if n = 0 then 0 else n)
      ease := some (match sc.ease with
        | none => EASE_FACTOR_DEFAULT
        | some e => if e = 0 then EASE_FACTOR_DEFAULT else e)
      due := some (match sc.due with
        | some (some t) => some t
        | _ => none)
      reviewCount := some (jsNumOrZero sc.reviewCount)
      tags := some (sc.tags.getD [])
      suspended := some (sc.suspended.getD false) }

/-- The card-level merge of `loadFlashcards` for a page that exists locally:
`updatedCards` is built by walking the server page's cards in order, merging
each with the local card of identical question when one exists; the page's
card array is then REPLACED by `updatedCards`
(`allFlashcards[pageId].cards = updatedCards`). -/
def mergeCards (localCards serverCards : List Card) : List Card :=
  serverCards.map (fun sc =>
    match existingCardsByQuestion localCards sc.question with
    | some lc => mergeMatched lc sc
    | none => initCard sc)

/-! ## Study-session queue construction (`startStudySession`) -/

/-- A page (deck) of the card store: `cards` may be absent
(`if (!page.cards) return` skips such pages when collecting). -/
structure Page where
  pageTitle : String := ""
  lastUpdated : String := ""
  cards : Option (List Card) := none
deriving DecidableEq, Repr

/-- The card store `allFlashcards`, in `Object.entries` (insertion) order. -/
def Store := List (String × Page)

/-- An entry of the study queue: `{ pageId, cardIndex, type, due }` (review
entries carry the card's due date; new entries do not). -/
structure QueueEntry where
  pageId : String
  cardIndex : Nat
  type : String
  due : Option Nat := none
deriving DecidableEq, Repr

/-- The user settings consulted by `startStudySession`. -/
structure Settings where
  reviewsPerDay : Nat
  newCardsPerDay : Nat
  cardOrderNew : String := "added"
deriving DecidableEq, Repr

/-- The tag check of `startStudySession`:
`tags.length === 0 || (card.tags && tags.some(tag => card.tags.includes(tag)))`. -/
def matchesTags (tags : List String) (cardTags : Option (List String)) : Bool :=
  tags.isEmpty ||
    (match cardTags with
     | some l => tags.any (fun t => l.contains t)
     | none => false)

/-- Collect the due cards: every card with a truthy, past-or-present due date
(`card.due && new Date(card.due) <= today`), not suspended, matching the tag
filter, in store order, as `type: 'review'` entries carrying their due date. -/
def collectDueCards (store : Store) (tags : List String) (now : Nat) :
    List QueueEntry :=
  store.flatMap (fun pp =>
    match pp.2.cards with
    | none => []
    | some cs => cs.enum.filterMap (fun ic =>
        match ic.2.due with
        | some (some t) =>
            if t ≤ now ∧ ic.2.suspended.getD false = false ∧
               matchesTags tags ic.2.tags
            then some { pageId := pp.1, cardIndex := ic.1, type := "review",
                        due := some t }
            else none
        | _ => none))

/-- Collect the new cards: every card with a falsy due date (`!card.due`,
i.e. absent or `null`), not suspended, matching the tag filter, in store
order, as `type: 'new'` entries. -/
def collectNewCards (store : Store) (tags : List String) : List QueueEntry :=
  store.flatMap (fun pp =>
    match pp.2.cards with
    | none => []
    | some cs => cs.enum.filterMap (fun ic =>
        match ic.2.due with
        | some (some _) => none
        | _ =>
            if ic.2.suspended.getD false = false ∧ matchesTags tags ic.2.tags
            then some { pageId := pp.1, cardIndex := ic.1, type := "new" }
            else none))

/-- Stable insertion keyed by a natural number, used to model the in-place
`Array.prototype.sort` with a numeric comparator. -/
def insertByKey {α : Type} (key : α → Nat) (a : α) : List α → List α
  | [] => [a]
  | b :: l => if key a ≤ key b then a :: b :: l else b :: insertByKey key a l

/-- Stable sort keyed by a natural number
(`reviewCards.sort((a, b) => a.due - b.due)` and
`pendingSaves.sort((a, b) => a.timestamp - b.timestamp)`). -/
def sortByKey {α : Type} (key : α → Nat) (l : List α) : List α :=
  l.foldr (insertByKey key) []

/-- The sort key of a review queue entry (review entries always carry a due
date). -/
def dueKey (e : QueueEntry) : Nat := e.due.getD 0

/-- The study session record (`studySession`). -/
structure Session where
  active : Bool
  queue : List QueueEntry
  currentIndex : Nat
  startTime : Option Nat := none
deriving DecidableEq, Repr

/-- `startStudySession(includeDue, includeNew, limit, tags)`:
collect and due-sort the review candidates, truncate them to
`min(userSettings.reviewsPerDay, limit)`; collect the new candidates,
shuffle them when `cardOrderNew === 'random'` (the shuffle is passed as a
parameter because it draws on `Math.random()`), truncate them to
`min(userSettings.newCardsPerDay, limit - limitedReviewCards.length)`;
concatenate review entries then new entries.  An empty queue reports
"no cards to study" and creates no session; otherwise the session starts
`active` at index `0` with `startTime = now`. -/
def startStudySession (store : Store) (settings : Settings)
    (shuffle : List QueueEntry → List QueueEntry)
    (includeDue includeNew : Bool) (limit : Nat) (tags : List String)
    (now : Nat) : Option Session :=
  let reviewCards := if includeDue then collectDueCards store tags now else []
  let sortedReview := sortByKey dueKey reviewCards
  let limitedReviewCards := sortedReview.take (min settings.reviewsPerDay limit)
  let limitedNewCards :=
    if includeNew then
      let newCards := collectNewCards store tags
      let ordered := if settings.cardOrderNew = "random" then shuffle newCards
                     else newCards
      ordered.take (min settings.newCardsPerDay
                        (limit - limitedReviewCards.length))
    else []
  let studyQueue := limitedReviewCards ++ limitedNewCards
  if studyQueue.isEmpty then none
  else some { active := true, queue := studyQueue, currentIndex := 0,
              startTime := some now }

/-! ## Study statistics (`recordCardReview`, `updateStudyStreak`) -/

/-- Per-deck statistics (`userStudyStats.deckStats[pageId]`). -/
structure DeckStat where
  cardsStudied : Nat := 0
  totalReviews : Nat := 0
  correctReviews : Nat := 0
deriving DecidableEq, Repr

/-- One entry of the bounded review history. -/
structure ReviewHistEntry where
  date : Nat
  cardIndex : Nat
  pageId : String
  cardId : String
  result : String
  previousInterval : Int
  newInterval : Option Int
  ease : Option Rat
deriving DecidableEq, Repr

/-- `userStudyStats`.  The `deckStats` object is a string-keyed map, as a
JavaScript object is. -/
structure StudyStats where
  cardsStudied : Nat := 0
  totalReviews : Nat := 0
  correctReviews : Nat := 0
  studyTimeMinutes : Option Int := some 0
  streakDays : Nat := 0
  lastStudyDate : Option String := none
  reviewHistory : List ReviewHistEntry := []
  deckStats : String → Option DeckStat := fun _ => none

/-- `updateStudyStreak()`: already-studied-today is a no-op; a last study
date of yesterday increments the streak, any other defined date resets it to
1, an absent date starts it at 1; the last study date becomes today. -/
def updateStudyStreak (stats : StudyStats) (today yesterday : String) :
    StudyStats :=
  match stats.lastStudyDate with
  | some lastDate =>
      if lastDate = today then stats
      else if lastDate = yesterday then
        { stats with streakDays := stats.streakDays + 1,
                     lastStudyDate := some today }
      else { stats with streakDays := 1, lastStudyDate := some today }
  | none => { stats with streakDays := 1, lastStudyDate := some today }

/-- Fetch `allFlashcards[pageId]?.cards[cardIndex]`. -/
def getCard (store : Store) (pid : String) (cardIndex : Nat) : Option Card :=
  match (store.foldl (fun acc p => if p.1 = pid then some p.2 else acc) none) with
  | none => none
  | some page => (page.cards.getD []).get? cardIndex

/-- The first-exposure test of `recordCardReview`:
`!card.reviewCount || card.reviewCount === 0` (falsy covers absent, `NaN`
and `0`). -/
def isFirstReview (card : Card) : Bool :=
  match card.reviewCount with
  | none => true
  | some .nan => true
  | some (.num n) => n = 0

/-- `recordCardReview(cardIndex, pageId, result)`: the aggregate
`totalReviews` is always incremented and `correctReviews` exactly when the
result is `'good'` or `'easy'`; if the card no longer exists the function
returns there; otherwise `cardsStudied` is incremented on first exposure, a
history entry is appended (history capped to its last 1000 entries), the
per-deck counters are updated the same way (the deck's record being created
on demand), and the streak is updated. -/
def recordCardReview (stats : StudyStats) (store : Store) (cardIndex : Nat)
    (pageId : String) (result : String) (now : Nat)
    (today yesterday : String) : StudyStats :=
  let isCorrect : Bool := result = "good" ∨ result = "easy"
  let stats1 :=
    { stats with
        totalReviews := stats.totalReviews + 1
        correctReviews := stats.correctReviews + (if isCorrect then 1 else 0) }
  match getCard store pageId cardIndex with
  | none => stats1
  | some card =>
      let stats2 :=
        if isFirstReview card then
          { stats1 with cardsStudied := stats1.cardsStudied + 1 }
        else stats1
      let hist := stats2.reviewHistory ++
        [{ date := now, cardIndex := cardIndex, pageId := pageId,
           cardId := card.id.getD (pageId ++ "-" ++ toString cardIndex),
           result := result,
           previousInterval := (match card.interval with
             | none => 0
             | some n => if n = 0 then 0 else n),
           newInterval := card.interval, ease := card.ease }]
      let hist := if 1000 < hist.length then
          hist.drop (hist.length - 1000) else hist
      let stats3 := { stats2 with reviewHistory := hist }
      let d0 := (stats3.deckStats pageId).getD {}
      let d1 :=
        { d0 with
            totalReviews := d0.totalReviews + 1
            correctReviews := d0.correctReviews + (if isCorrect then 1 else 0) }
      let d2 :=
        if isFirstReview card then
          { d1 with cardsStudied := d1.cardsStudied + 1 }
        else d1
      let stats4 := { stats3 with deckStats :=
        fun q => if q = pageId then some d2 else stats3.deckStats q }
      updateStudyStreak stats4 today yesterday

/-! ## Review loop: presenting cards and completion
(`showStudyCard`, `showStudyCompletion`) -/

/-- The relevant client state around the review loop: the in-memory session
and statistics, and their images in `localStorage`
(`saveStudySession` / `saveStudyStats` write them; only the decline branch of
the resume prompt ever calls `localStorage.removeItem('studySession')`). -/
structure AppState where
  session : Session
  stats : StudyStats
  persistedSession : Option Session := none
  persistedStats : Option StudyStats := none

/-- JavaScript `Math.round`: rounds to the nearest integer, halves toward
positive infinity. -/
def jsRound (q : Rat) : Int := Int.floor (q + 1/2)

/-- JavaScript `x || 0` on a possibly-absent integer. -/
def jsIntOrZero : Option Int → Int
  | none => 0
  | some n => n

/-- `showStudyCompletion()`: shows the completion screen (display only),
and when the session has a `startTime` computes
`studyMinutes = Math.round((endTime - startTime) / (1000 * 60))`, adds it to
the cumulative `userStudyStats.studyTimeMinutes` (with a `|| 0` guard) and
persists the statistics.  The session itself is NOT touched: `active` keeps
its value and the persisted session is neither overwritten nor removed.
(The summary numbers rendered in the DOM — total, new and review counts —
are display-only and not part of the state.) -/
def showStudyCompletion (st : AppState) (now : Nat) : AppState :=
  match st.session.startTime with
  | some t0 =>
      let studyMinutes : Int :=
        jsRound ((((now : Int) - (t0 : Int) : Int) : Rat) / 60000)
      let stats' := { st.stats with
        studyTimeMinutes :=
          some (jsIntOrZero st.stats.studyTimeMinutes + studyMinutes) }
      { st with stats := stats', persistedStats := some stats' }
  | none => st

/-- The result of presenting the current position: either the completion
signal or a concrete card to show. -/
inductive ShowResult where
  | completed : AppState → ShowResult
  | card : String → Nat → AppState → ShowResult

/-- `showStudyCard()`: when `currentIndex >= queue.length` the completion
screen is signalled instead of a card; otherwise the queue entry is resolved
through the card store — a stale entry (card deleted meanwhile) advances
`currentIndex`, persists the session and retries; a live entry is
presented. -/
def showStudyCard (store : Store) (now : Nat) (st : AppState) : ShowResult :=
  if h : st.session.queue.length ≤ st.session.currentIndex then
    .completed (showStudyCompletion st now)
  else
    let e := st.session.queue.get ⟨st.session.currentIndex, by omega⟩
    match getCard store e.pageId e.cardIndex with
    | none =>
        let session' := { st.session with
          currentIndex := st.session.currentIndex + 1 }
        showStudyCard store now
          { st with session := session', persistedSession := some session' }
    | some _ => .card e.pageId e.cardIndex st
termination_by st.session.queue.length - st.session.currentIndex
decreasing_by simp; omega

/-! ## Offline retry queue (`saveFlashcardsToServer`, `processPendingSaves`) -/

/-- A queued mutation: the payload (the serialized card store) stamped with
`Date.now()` at enqueue time. -/
structure PendingSave where
  timestamp : Nat
  data : String
deriving DecidableEq, Repr

/-- The retry loop of `processPendingSaves` over the (already sorted) queue:
entries are POSTed one at a time; the first failure stops the loop and the
queue becomes `pendingSaves.slice(i)` — the failed entry and everything after
it; if every entry succeeds the queue becomes empty.  The network outcome is
modelled by the `send` parameter. -/
def flushSaves (send : PendingSave → Bool) : List PendingSave → List PendingSave
  | [] => []
  | e :: rest => if send e then flushSaves send rest else e :: rest

/-- `processPendingSaves()`: returns immediately (queue unchanged) when
offline or when the queue is empty; otherwise sorts the queue by timestamp
(oldest first) and flushes it in order. -/
def processPendingSaves (send : PendingSave → Bool) (online : Bool)
    (queue : List PendingSave) : List PendingSave :=
  if online = false ∨ queue.isEmpty then queue
  else flushSaves send (sortByKey (fun e => e.timestamp) queue)

/-! ## Helper lemmas -/

/-- The clamped rating switch of the code computes exactly the
specification's rating table, for every rating string (including the
unrecognised ones, where both are undefined). -/
theorem specRatingTable_eq_ratingSwitch (r : String) (i : Int) (e : Rat) :
    specRatingTable r i e =
      (ratingSwitch r i e).map
        (fun p => (min MAX_INTERVAL (max MIN_INTERVAL p.1), p.2)) := by
  have hmax : MAX_INTERVAL = 1460 := by decide
  have hmin : MIN_INTERVAL = 1 := by decide
  by_cases h1 : r = "again"
  · subst h1; rfl
  by_cases h2 : r = "hard"
  · subst h2; rfl
  by_cases h3 : r = "good"
  · subst h3
    simp only [specRatingTable, ratingSwitch, EASE_MODIFIER_GOOD,
      INTERVAL_MODIFIER, mul_one, Option.map, hmax, hmin]
  by_cases h4 : r = "easy"
  · subst h4
    simp only [specRatingTable, ratingSwitch, EASE_MODIFIER_EASY,
      INTERVAL_MODIFIER, mul_one, Option.map, hmax, hmin]
  · have hc : ratingSwitch r i e = none := by
      unfold ratingSwitch
      split <;> simp_all
    have hs : specRatingTable r i e = none := by
      unfold specRatingTable
      split <;> simp_all
    rw [hc, hs]; rfl

/-- The interval initialisation is the identity on a present interval. -/
theorem intervalInit_some (c : Card) (i : Int) (hi : c.interval = some i) :
    intervalInit c = i := by
  simp only [intervalInit, hi]
  split <;> omega

/-- The ease initialisation is the identity on a present non-zero ease. -/
theorem easeInit_some (c : Card) (e : Rat) (he : c.ease = some e)
    (he0 : e ≠ 0) : easeInit c = e := by
  simp only [easeInit, he, if_neg he0]

/-- Closed form of `applySpacedRepetition` on a card with a present interval
and a non-zero present ease, when the rating switch matches. -/
theorem applySpacedRepetition_eq (c : Card) (i : Int) (e : Rat) (r : String)
    (now : Nat) (q1 : Int) (q2 : Rat) (hi : c.interval = some i)
    (he : c.ease = some e) (he0 : e ≠ 0)
    (hq : ratingSwitch r i e = some (q1, q2)) :
    applySpacedRepetition c r now =
      .ok { c with
              interval := some (min MAX_INTERVAL (max MIN_INTERVAL q1))
              ease := some q2
              reviewCount := some (jsIncr c.reviewCount)
              due := some (some (now +
                (min MAX_INTERVAL (max MIN_INTERVAL q1)).toNat * dayMs)) } := by
  simp only [applySpacedRepetition, intervalInit_some c i hi,
    easeInit_some c e he he0, hq]

/-- **C1**: for every card state `{interval, ease}` (interval present, ease
present and non-zero, as every live card has) and each of the four ratings,
`applySpacedRepetition` computes the new interval and ease exactly as the
specification's rating table (`specRatingTable`), including the final clamp
of the interval to `[1, 1460]`. -/
theorem c1_scheduler_matches_spec_table (c : Card) (i : Int) (e : Rat)
    (r : String) (now : Nat) (hi : c.interval = some i) (he : c.ease = some e)
    (he0 : e ≠ 0)
    (hr : r = "again" ∨ r = "hard" ∨ r = "good" ∨ r = "easy") :
    ∃ p c', specRatingTable r i e = some p ∧
      applySpacedRepetition c r now = .ok c' ∧
      c'.interval = some p.1 ∧ c'.ease = some p.2 := by
  have hswitch : ∃ q, ratingSwitch r i e = some q := by
    rcases hr with h | h | h | h <;> subst h <;> exact ⟨_, rfl⟩
  obtain ⟨⟨q1, q2⟩, hq⟩ := hswitch
  refine ⟨(min MAX_INTERVAL (max MIN_INTERVAL q1), q2), _,
    ?_, applySpacedRepetition_eq c i e r now q1 q2 hi he he0 hq, rfl, rfl⟩
  rw [specRatingTable_eq_ratingSwitch, hq]
  rfl

/-- Witness for C1: the specification's own scenario — a card
`{interval: 10, ease: 2.0}` rated `hard` ends with `interval' = 6` and
`ease' = 1.7`, through the theorem applied at that concrete input. -/
theorem c1_witness :
    ∃ p c', specRatingTable "hard" 10 2 = some p ∧
      applySpacedRepetition
        { question := "q", interval := some 10, ease := some 2 } "hard" 0 =
          .ok c' ∧
      c'.interval = some p.1 ∧ c'.ease = some p.2 ∧
      p.1 = 6 ∧ p.2 = 17/10 := by
  obtain ⟨p, c', h1, h2, h3, h4⟩ :=
    c1_scheduler_matches_spec_table
      { question := "q", interval := some 10, ease := some 2 } 10 2 "hard" 0
      rfl rfl (by norm_num) (by simp)
  refine ⟨p, c', h1, h2, h3, h4, ?_, ?_⟩
  · have hv : specRatingTable "hard" 10 2 = some (6, 17/10) := by
      simp only [specRatingTable]
      norm_num [min_def, max_def]
    rw [hv] at h1
    exact (Prod.mk.injEq _ _ _ _).mp (Option.some.inj h1.symm) |>.1
  · have hv : specRatingTable "hard" 10 2 = some (6, 17/10) := by
      simp only [specRatingTable]
      norm_num [min_def, max_def]
    rw [hv] at h1
    exact (Prod.mk.injEq _ _ _ _).mp (Option.some.inj h1.symm) |>.2

/-- Closed form of `applySpacedRepetition` whenever the switch matches. -/
theorem applySpacedRepetition_ok (c : Card) (r : String) (now : Nat)
    (q1 : Int) (q2 : Rat)
    (hq : ratingSwitch r (intervalInit c) (easeInit c) = some (q1, q2)) :
    applySpacedRepetition c r now =
      .ok { c with
              interval := some (min MAX_INTERVAL (max MIN_INTERVAL q1))
              ease := some q2
              reviewCount := some (jsIncr c.reviewCount)
              due := some (some (now +
                (min MAX_INTERVAL (max MIN_INTERVAL q1)).toNat * dayMs)) } := by
  simp only [applySpacedRepetition, hq]

/-- `applySpacedRepetition` throws whenever the switch does not match. -/
theorem applySpacedRepetition_err (c : Card) (r : String) (now : Nat)
    (hq : ratingSwitch r (intervalInit c) (easeInit c) = none) :
    applySpacedRepetition c r now = .error "RangeError: Invalid time value" := by
  simp only [applySpacedRepetition, hq]

/-- A rating string outside the four recognised cases falls through the
switch. -/
theorem ratingSwitch_none (r : String) (i : Int) (e : Rat)
    (h1 : r ≠ "again") (h2 : r ≠ "hard") (h3 : r ≠ "good") (h4 : r ≠ "easy") :
    ratingSwitch r i e = none := by
  unfold ratingSwitch
  split <;> simp_all

/-- **C5**: applying a rating outside `{again, hard, good, easy}` is a fatal
operation error: `applySpacedRepetition` raises (the clamp turns the
undefined new interval into `NaN`, making the due date invalid, and
`toISOString` throws a `RangeError`), so the scheduler never writes a
defaulted scheduling state and returns normally. -/
theorem c5_unrecognised_rating_throws (c : Card) (r : String) (now : Nat)
    (h1 : r ≠ "again") (h2 : r ≠ "hard") (h3 : r ≠ "good") (h4 : r ≠ "easy") :
    applySpacedRepetition c r now =
      .error "RangeError: Invalid time value" := by
  exact applySpacedRepetition_err c r now (ratingSwitch_none _ _ _ h1 h2 h3 h4)

/-- Witness for C5: the rating string `"ok"` at a concrete card. -/
theorem c5_witness :
    applySpacedRepetition
      { question := "q", interval := some 3, ease := some 2,
        reviewCount := some (.num 1) } "ok" 0 =
      Except.error "RangeError: Invalid time value" :=
  c5_unrecognised_rating_throws _ "ok" 0 (by decide) (by decide) (by decide)
    (by decide)

/-- **C9** (the code at the failing input): a card whose `reviewCount`
property is absent — the state every card is in before the initialisation
that `applySpacedRepetition`'s own comment promises — ends one `good` rating
with `reviewCount = NaN`, not `1`: the guard
`if (!card.reviewCount === undefined)` compares a boolean against
`undefined`, never initialises, and `card.reviewCount++` turns `undefined`
into `NaN`. -/
theorem c9_reviewCount_nan_on_fresh_card :
    ∃ c', applySpacedRepetition { question := "q" } "good" 0 = .ok c' ∧
      c'.reviewCount = some JsNum.nan ∧
      c'.reviewCount ≠ some (JsNum.num 1) := by
  refine ⟨_, applySpacedRepetition_ok { question := "q" } "good" 0 _ _ rfl,
    rfl, by decide⟩

/-! ## The ease floor (claim C3) -/

/-- The ease-state invariant of a live card: ease absent or `0` (a fresh or
falsy ease, initialised to the 2.5 default by the scheduler) or at least the
1.3 floor. -/
def EaseOK (c : Card) : Prop :=
  c.ease = none ∨ c.ease = some 0 ∨ ∃ e, c.ease = some e ∧ (13/10 : Rat) ≤ e

/-- Under `EaseOK`, the initialised ease is at least the floor. -/
theorem easeInit_ge_floor (c : Card) (h : EaseOK c) :
    (13/10 : Rat) ≤ easeInit c := by
  rcases h with h | h | ⟨e, he, hge⟩
  · simp only [easeInit, h]
    norm_num [EASE_FACTOR_DEFAULT]
  · simp only [easeInit, h, if_pos rfl]
    norm_num [EASE_FACTOR_DEFAULT]
  · have he0 : e ≠ 0 := by
      intro h0
      rw [h0] at hge
      norm_num at hge
    rw [easeInit_some c e he he0]
    exact hge

/-- One application of any of the four ratings leaves the ease at or above
the 1.3 floor. -/
theorem ease_floor_step (c : Card) (r : String) (now : Nat)
    (hr : r = "again" ∨ r = "hard" ∨ r = "good" ∨ r = "easy")
    (h : EaseOK c) :
    ∃ c', applySpacedRepetition c r now = .ok c' ∧
      ∃ e, c'.ease = some e ∧ (13/10 : Rat) ≤ e := by
  have hge := easeInit_ge_floor c h
  rcases hr with h' | h' | h' | h' <;> subst h'
  · exact ⟨_, applySpacedRepetition_ok c _ now _ _ rfl, _, rfl, le_max_left _ _⟩
  · exact ⟨_, applySpacedRepetition_ok c _ now _ _ rfl, _, rfl, le_max_left _ _⟩
  · refine ⟨_, applySpacedRepetition_ok c _ now _ _ rfl, _, rfl, ?_⟩
    calc (13/10 : Rat) ≤ easeInit c := hge
    _ = easeInit c * EASE_MODIFIER_GOOD := by
        rw [EASE_MODIFIER_GOOD, mul_one]
  · refine ⟨_, applySpacedRepetition_ok c _ now _ _ rfl, _, rfl, ?_⟩
    calc (13/10 : Rat) = 1 * (13/10) := (one_mul _).symm
    _ ≤ easeInit c * (13/10) := by
        apply mul_le_mul_of_nonneg_right _ (by norm_num)
        calc (1 : Rat) ≤ 13/10 := by norm_num
        _ ≤ easeInit c := hge
    _ = easeInit c * EASE_MODIFIER_EASY := by rw [EASE_MODIFIER_EASY]

/-- A whole rating sequence applied in order (the review loop calls
`applySpacedRepetition` once per rating). -/
def applyRatings (c : Card) (rs : List String) (now : Nat) :
    Except String Card :=
  rs.foldlM (fun c r => applySpacedRepetition c r now) c

/-- After a nonempty valid rating sequence the ease carries the floor. -/
theorem applyRatings_cons_floor (rs : List String) (r : String) (c : Card)
    (now : Nat)
    (hr : r = "again" ∨ r = "hard" ∨ r = "good" ∨ r = "easy")
    (hrs : ∀ x ∈ rs, x = "again" ∨ x = "hard" ∨ x = "good" ∨ x = "easy")
    (h : EaseOK c) :
    ∃ c', applyRatings c (r :: rs) now = .ok c' ∧
      ∃ e, c'.ease = some e ∧ (13/10 : Rat) ≤ e := by
  induction rs generalizing r c with
  | nil =>
      obtain ⟨c', hc', he⟩ := ease_floor_step c r now hr h
      exact ⟨c', by simp [applyRatings, hc'], he⟩
  | cons r2 rest ih =>
      obtain ⟨c1, hc1, e1, he1, hge1⟩ := ease_floor_step c r now hr h
      obtain ⟨c', hc', he⟩ :=
        ih r2 c1 (hrs r2 (by simp)) (fun x hx => hrs x (by simp [hx]))
          (Or.inr (Or.inr ⟨e1, he1, hge1⟩))
      refine ⟨c', ?_, he⟩
      simp only [applyRatings, List.foldlM_cons, hc1] at hc' ⊢
      exact hc'

/-- Counterexample to C3 as stated: the claim quantifies over every card
state, but for a card with `ease = 1.0` (such states are reachable: the
merge adopts a server-supplied ease verbatim) a `good` rating multiplies the
ease by 1.0 with NO clamp, leaving it at `1.0 < 1.3`. -/
theorem c3_counterexample :
    ∃ c', applySpacedRepetition
        { question := "q", interval := some 2, ease := some 1,
          reviewCount := some (.num 1) } "good" 0 = .ok c' ∧
      c'.ease = some 1 ∧ ¬ (13/10 : Rat) ≤ 1 := by
  refine ⟨_, applySpacedRepetition_ok
    { question := "q", interval := some 2, ease := some 1,
      reviewCount := some (.num 1) } "good" 0 _ _ rfl, ?_, by norm_num⟩
  show some _ = some 1
  norm_num [easeInit, EASE_MODIFIER_GOOD]

/-- **C3** (amended): for every card whose ease satisfies the live-card
invariant — absent or `0` (initialised to the 2.5 default by the scheduler)
or already at least `1.3` — and every nonempty sequence of valid ratings,
the ease is at least `1.3` after the sequence; since this holds for every
such sequence it holds after every application of a longer sequence.
(`again` and `hard` clamp with an explicit `Math.max(1.3, …)`; `good` and
`easy` carry no clamp and merely preserve the floor.) -/
theorem c3_ease_floor_invariant (c : Card) (rs : List String) (now : Nat)
    (hne : rs ≠ [])
    (hrs : ∀ x ∈ rs, x = "again" ∨ x = "hard" ∨ x = "good" ∨ x = "easy")
    (h : EaseOK c) :
    ∃ c', applyRatings c rs now = .ok c' ∧
      ∃ e, c'.ease = some e ∧ (13/10 : Rat) ≤ e := by
  match rs, hne with
  | r :: rest, _ =>
      exact applyRatings_cons_floor rest r c now (hrs r (by simp))
        (fun x hx => hrs x (by simp [hx])) h

/-- Witness for C3: a fresh card (absent ease) rated `good` then `easy`
keeps its ease at or above the floor. -/
theorem c3_witness :
    ∃ c', applyRatings { question := "q" } ["good", "easy"] 0 = .ok c' ∧
      ∃ e, c'.ease = some e ∧ (13/10 : Rat) ≤ e :=
  c3_ease_floor_invariant { question := "q" } ["good", "easy"] 0 (by decide)
    (by decide) (Or.inl rfl)

/-! ## Merge claims (C2 and C4) -/

/-- The merged card built for one incoming card keeps the incoming question,
whether or not a local match was found. -/
theorem merged_question (localCards : List Card) (s : Card) :
    (match existingCardsByQuestion localCards s.question with
     | some lc => mergeMatched lc s
     | none => initCard s).question = s.question := by
  cases existingCardsByQuestion localCards s.question <;> rfl

/-- Counterexample to C2 as stated: a local deck holding the card `A` merged
with an incoming payload holding only the card `B` ends WITHOUT `A` — the
local card matches no incoming question, yet it is dropped, because the
merge replaces the page's card array with `updatedCards`, which is built
from the incoming cards alone. -/
theorem c2_counterexample :
    (∀ c ∈ mergeCards
        [{ question := "A", interval := some 5, ease := some 2 }]
        [{ question := "B" }], c.question ≠ "A") ∧
    (∃ lc ∈ ([{ question := "A", interval := some 5, ease := some 2 }] :
        List Card), lc.question = "A" ∧
      ∀ sc ∈ ([{ question := "B" }] : List Card), sc.question ≠ "A") := by
  constructor
  · intro c hc
    simp only [mergeCards, existingCardsByQuestion, List.map, List.foldl,
      List.mem_singleton] at hc
    subst hc
    decide
  · exact ⟨{ question := "A", interval := some 5, ease := some 2 },
      by simp, rfl, by decide⟩

/-- **C2** (amended): the merge is NOT additive at the card level — for a
page present in the incoming payload, the merged card list consists exactly
of the incoming cards, in payload order (each merged with the scheduling
data of the local card of identical question when one exists); a local card
whose question matches no incoming card is dropped from that page.  (Pages
absent from the payload are never visited and keep their cards.) -/
theorem c2_merge_replaces_card_list (localCards serverCards : List Card) :
    (mergeCards localCards serverCards).map (fun c => c.question) =
      serverCards.map (fun c => c.question) := by
  unfold mergeCards
  rw [List.map_map]
  apply List.map_congr_left
  intro a _
  exact merged_question localCards a

/-- **C4**: when an incoming card matches a local card by question text,
every scheduling field of the merged card is the incoming value when the
incoming payload supplies it and the local value otherwise
(`incoming.field !== undefined ? incoming.field : local.field || default`),
for a local card whose scheduling fields are present and well-formed
(numeric `reviewCount`, non-zero ease).  In particular a payload with all
scheduling fields absent leaves every local scheduling field unchanged. -/
theorem c4_matched_merge_fields (lc sc : Card) (li : Int) (le : Rat)
    (ld : Option Nat) (ln : Int) (ls : Bool)
    (hi : lc.interval = some li) (he : lc.ease = some le) (he0 : le ≠ 0)
    (hd : lc.due = some ld) (hrc : lc.reviewCount = some (.num ln))
    (hs : lc.suspended = some ls) :
    (mergeMatched lc sc).interval = some (sc.interval.getD li) ∧
    (mergeMatched lc sc).ease = some (sc.ease.getD le) ∧
    (mergeMatched lc sc).due = some (sc.due.getD ld) ∧
    (mergeMatched lc sc).reviewCount = some (sc.reviewCount.getD (.num ln)) ∧
    (mergeMatched lc sc).suspended = some (sc.suspended.getD ls) := by
  refine ⟨?_, ?_, ?_, ?_, ?_⟩ <;>
    simp only [mergeMatched, hi, he, hd, hrc, hs]
  · cases sc.interval with
    | none =>
        simp only [Option.getD_none, Option.some.injEq]
        split <;> omega
    | some v => rfl
  · cases sc.ease with
    | none => simp [if_neg he0]
    | some v => rfl
  · cases sc.due with
    | none => cases ld <;> rfl
    | some v => rfl
  · cases sc.reviewCount with
    | none => rfl
    | some v => rfl
  · cases sc.suspended with
    | none => rfl
    | some v => rfl

/-- Witness for C4: a local card with non-default scheduling state merged
with an incoming card supplying no scheduling fields keeps every local
scheduling field. -/
theorem c4_witness :
    (mergeMatched
      { question := "A", interval := some 5, ease := some 2,
        due := some (some 100), reviewCount := some (.num 3),
        suspended := some false }
      { question := "A" }).interval = some 5 ∧
    (mergeMatched
      { question := "A", interval := some 5, ease := some 2,
        due := some (some 100), reviewCount := some (.num 3),
        suspended := some false }
      { question := "A" }).ease = some 2 ∧
    (mergeMatched
      { question := "A", interval := some 5, ease := some 2,
        due := some (some 100), reviewCount := some (.num 3),
        suspended := some false }
      { question := "A" }).due = some (some 100) ∧
    (mergeMatched
      { question := "A", interval := some 5, ease := some 2,
        due := some (some 100), reviewCount := some (.num 3),
        suspended := some false }
      { question := "A" }).reviewCount = some (.num 3) ∧
    (mergeMatched
      { question := "A", interval := some 5, ease := some 2,
        due := some (some 100), reviewCount := some (.num 3),
        suspended := some false }
      { question := "A" }).suspended = some false := by
  have h := c4_matched_merge_fields
    { question := "A", interval := some 5, ease := some 2,
      due := some (some 100), reviewCount := some (.num 3),
      suspended := some false }
    { question := "A" } 5 2 (some 100) 3 false rfl rfl (by norm_num) rfl rfl
    rfl
  simpa using h

/-! ## Sorting lemmas (for the due-sort and the retry queue) -/

theorem insertByKey_perm {α : Type} (key : α → Nat) (a : α) (l : List α) :
    (insertByKey key a l).Perm (a :: l) := by
  induction l with
  | nil => exact List.Perm.refl _
  | cons b t ih =>
      unfold insertByKey
      split
      · exact List.Perm.refl _
      · exact (List.Perm.cons b ih).trans (List.Perm.swap a b t)

theorem sortByKey_perm {α : Type} (key : α → Nat) (l : List α) :
    (sortByKey key l).Perm l := by
  induction l with
  | nil => exact List.Perm.refl _
  | cons a t ih =>
      exact (insertByKey_perm key a (sortByKey key t)).trans
        (List.Perm.cons a ih)

theorem sorted_insertByKey {α : Type} (key : α → Nat) (a : α) (l : List α)
    (h : l.Pairwise (fun x y => key x ≤ key y)) :
    (insertByKey key a l).Pairwise (fun x y => key x ≤ key y) := by
  induction l with
  | nil => simp [insertByKey]
  | cons b t ih =>
      rw [List.pairwise_cons] at h
      obtain ⟨hb, ht⟩ := h
      unfold insertByKey
      split
      · rename_i hab
        rw [List.pairwise_cons]
        refine ⟨?_, List.pairwise_cons.mpr ⟨hb, ht⟩⟩
        intro x hx
        rcases List.mem_cons.mp hx with h | h
        · subst h; exact hab
        · exact le_trans hab (hb x h)
      · rename_i hab
        rw [List.pairwise_cons]
        refine ⟨?_, ih ht⟩
        intro x hx
        have hx' : x ∈ a :: t :=
          (insertByKey_perm key a t).mem_iff.mp hx
        rcases List.mem_cons.mp hx' with h | h
        · subst h; omega
        · exact hb x h

theorem sorted_sortByKey {α : Type} (key : α → Nat) (l : List α) :
    (sortByKey key l).Pairwise (fun x y => key x ≤ key y) := by
  induction l with
  | nil => simp [sortByKey]
  | cons a t ih => exact sorted_insertByKey key a (sortByKey key t) ih

/-! ## The retry queue (claim C8) -/

theorem flushSaves_eq_dropWhile (send : PendingSave → Bool)
    (l : List PendingSave) : flushSaves send l = l.dropWhile send := by
  induction l with
  | nil => rfl
  | cons e t ih =>
      unfold flushSaves
      rw [List.dropWhile_cons]
      split <;> simp_all

theorem head?_dropWhile_false {α : Type} (p : α → Bool) (l : List α) :
    ∀ e, ((l.dropWhile p).head? = some e) → p e = false := by
  induction l with
  | nil => simp
  | cons x t ih =>
      intro e he
      rw [List.dropWhile_cons] at he
      by_cases hx : p x
      · rw [if_pos hx] at he
        exact ih e he
      · rw [if_neg hx] at he
        simp only [List.head?_cons, Option.some.injEq] at he
        subst he
        simpa using hx

theorem drop_takeWhile_length {α : Type} (p : α → Bool) (l : List α) :
    l.drop (l.takeWhile p).length = l.dropWhile p := by
  induction l with
  | nil => rfl
  | cons x t ih =>
      by_cases hx : p x
      · simp [List.takeWhile_cons, List.dropWhile_cons, hx, ih]
      · simp [List.takeWhile_cons, List.dropWhile_cons, hx]

theorem take_takeWhile_length {α : Type} (p : α → Bool) (l : List α) :
    l.take (l.takeWhile p).length = l.takeWhile p := by
  induction l with
  | nil => rfl
  | cons x t ih =>
      by_cases hx : p x
      · simp [List.takeWhile_cons, hx, ih]
      · simp [List.takeWhile_cons, hx]

/-- When online and nonempty (and also, trivially, when empty), the retry
pass leaves exactly the maximal failed suffix of the sorted queue. -/
theorem processPendingSaves_eq (send : PendingSave → Bool)
    (queue : List PendingSave) :
    processPendingSaves send true queue =
      (sortByKey (fun e => e.timestamp) queue).dropWhile send := by
  by_cases hq : queue.isEmpty
  · have h0 : queue = [] := List.isEmpty_iff.mp hq
    subst h0
    rfl
  · simp [processPendingSaves, hq, flushSaves_eq_dropWhile]

/-- **C8**: the offline retry queue is flushed in FIFO timestamp order
(the flush walks a timestamp-sorted permutation of the queue), and after a
flush the queue holds exactly the not-yet-successfully-sent entries: a suffix
of the sorted queue whose dropped prefix was all sent successfully and whose
head, if any, is the entry that failed — nothing lost, nothing reordered. -/
theorem c8_retry_queue_fifo_suffix (send : PendingSave → Bool)
    (queue : List PendingSave) :
    (sortByKey (fun e => e.timestamp) queue).Pairwise
        (fun a b => a.timestamp ≤ b.timestamp) ∧
    ((sortByKey (fun e => e.timestamp) queue).Perm queue) ∧
    ∃ k, processPendingSaves send true queue =
        (sortByKey (fun e => e.timestamp) queue).drop k ∧
      (∀ e ∈ (sortByKey (fun e => e.timestamp) queue).take k,
        send e = true) ∧
      (∀ e, (processPendingSaves send true queue).head? = some e →
        send e = false) := by
  refine ⟨sorted_sortByKey _ queue, sortByKey_perm _ queue,
    (List.takeWhile send (sortByKey (fun e => e.timestamp) queue)).length,
    ?_, ?_, ?_⟩
  · rw [processPendingSaves_eq, drop_takeWhile_length]
  · intro e he
    rw [take_takeWhile_length] at he
    exact List.mem_takeWhile_imp he
  · rw [processPendingSaves_eq]
    exact head?_dropWhile_false send _

/-! ## Statistics counters (claim C10) -/

/-- The streak update touches only `streakDays` and `lastStudyDate`. -/
theorem updateStudyStreak_totalReviews (s : StudyStats) (t y : String) :
    (updateStudyStreak s t y).totalReviews = s.totalReviews := by
  unfold updateStudyStreak
  cases s.lastStudyDate with
  | none => rfl
  | some d =>
      dsimp only
      split_ifs <;> rfl

theorem updateStudyStreak_correctReviews (s : StudyStats) (t y : String) :
    (updateStudyStreak s t y).correctReviews = s.correctReviews := by
  unfold updateStudyStreak
  cases s.lastStudyDate with
  | none => rfl
  | some d =>
      dsimp only
      split_ifs <;> rfl

theorem updateStudyStreak_deckStats (s : StudyStats) (t y : String) :
    (updateStudyStreak s t y).deckStats = s.deckStats := by
  unfold updateStudyStreak
  cases s.lastStudyDate with
  | none => rfl
  | some d =>
      dsimp only
      split_ifs <;> rfl

/-- **C10**: every recorded rating increments the aggregate `totalReviews`,
and increments the aggregate `correctReviews` exactly when the result is
`good` or `easy`; when the reviewed card exists, the per-deck counters move
the same way (`again` and `hard` never touch either `correctReviews`
counter). -/
theorem c10_correct_review_counters (stats : StudyStats) (store : Store)
    (cardIndex : Nat) (pageId : String) (result : String) (now : Nat)
    (today yesterday : String) (card : Card)
    (hc : getCard store pageId cardIndex = some card) :
    (recordCardReview stats store cardIndex pageId result now today
        yesterday).totalReviews = stats.totalReviews + 1 ∧
    (recordCardReview stats store cardIndex pageId result now today
        yesterday).correctReviews = stats.correctReviews +
      (if result = "good" ∨ result = "easy" then 1 else 0) ∧
    ∃ d', (recordCardReview stats store cardIndex pageId result now today
        yesterday).deckStats pageId = some d' ∧
      d'.totalReviews = ((stats.deckStats pageId).getD {}).totalReviews + 1 ∧
      d'.correctReviews = ((stats.deckStats pageId).getD {}).correctReviews +
        (if result = "good" ∨ result = "easy" then 1 else 0) := by
  unfold recordCardReview
  rw [hc]
  refine ⟨?_, ?_, ?_⟩
  · simp only [updateStudyStreak_totalReviews]
    by_cases hf : isFirstReview card <;> simp [hf]
  · simp only [updateStudyStreak_correctReviews]
    by_cases hf : isFirstReview card <;> simp [hf]
  · simp only [updateStudyStreak_deckStats]
    by_cases hf : isFirstReview card <;> simp [hf]

/-- Witness for C10: a `good` review recorded against a one-card store
increments both `totalReviews` and `correctReviews`, aggregate and
per-deck. -/
theorem c10_witness :
    (recordCardReview {}
        [("p", { pageTitle := "P", cards := some [{ question := "q" }] })]
        0 "p" "good" 5 "t" "y").totalReviews =
      ({} : StudyStats).totalReviews + 1 ∧
    (recordCardReview {}
        [("p", { pageTitle := "P", cards := some [{ question := "q" }] })]
        0 "p" "good" 5 "t" "y").correctReviews =
      ({} : StudyStats).correctReviews +
        (if "good" = "good" ∨ "good" = "easy" then 1 else 0) ∧
    ∃ d', (recordCardReview {}
        [("p", { pageTitle := "P", cards := some [{ question := "q" }] })]
        0 "p" "good" 5 "t" "y").deckStats "p" = some d' ∧
      d'.totalReviews =
        ((({} : StudyStats).deckStats "p").getD {}).totalReviews + 1 ∧
      d'.correctReviews =
        ((({} : StudyStats).deckStats "p").getD {}).correctReviews +
          (if "good" = "good" ∨ "good" = "easy" then 1 else 0) :=
  c10_correct_review_counters {}
    [("p", { pageTitle := "P", cards := some [{ question := "q" }] })]
    0 "p" "good" 5 "t" "y" { question := "q" } rfl

/-! ## Study-queue construction (claim C6) -/

theorem mem_collectDueCards_type (store : Store) (tags : List String)
    (now : Nat) : ∀ e ∈ collectDueCards store tags now, e.type = "review" := by
  intro e he
  simp only [collectDueCards, List.mem_flatMap] at he
  obtain ⟨pp, _, he⟩ := he
  cases hc : pp.2.cards with
  | none => rw [hc] at he; simp at he
  | some cs =>
      rw [hc] at he
      simp only [List.mem_filterMap] at he
      obtain ⟨ic, _, hm⟩ := he
      split at hm
      · split at hm
        · simp only [Option.some.injEq] at hm
          rw [← hm]
        · simp at hm
      · simp at hm

theorem mem_collectNewCards_type (store : Store) (tags : List String) :
    ∀ e ∈ collectNewCards store tags, e.type = "new" := by
  intro e he
  simp only [collectNewCards, List.mem_flatMap] at he
  obtain ⟨pp, _, he⟩ := he
  cases hc : pp.2.cards with
  | none => rw [hc] at he; simp at he
  | some cs =>
      rw [hc] at he
      simp only [List.mem_filterMap] at he
      obtain ⟨ic, _, hm⟩ := he
      split at hm
      · simp at hm
      · split at hm
        · simp only [Option.some.injEq] at hm
          rw [← hm]
        · simp at hm

/-- **C6**: with `includeDue = true` the session queue starts with the due
cards sorted ascending by due timestamp (earliest first) and truncated to
`min(userSettings.reviewsPerDay, limit)`; every entry of that prefix is a
review entry, and every entry after it is a new entry (the shuffle used for
the `random` new-card order is any permutation). -/
theorem c6_queue_due_sorted_then_new (store : Store) (settings : Settings)
    (shuffle : List QueueEntry → List QueueEntry)
    (hshuffle : ∀ l, (shuffle l).Perm l)
    (includeNew : Bool) (limit : Nat) (tags : List String) (now : Nat)
    (s : Session)
    (h : startStudySession store settings shuffle true includeNew limit tags
      now = some s) :
    ∃ nw, s.queue =
        (sortByKey dueKey (collectDueCards store tags now)).take
          (min settings.reviewsPerDay limit) ++ nw ∧
      ((sortByKey dueKey (collectDueCards store tags now)).take
          (min settings.reviewsPerDay limit)).Pairwise
        (fun a b => dueKey a ≤ dueKey b) ∧
      (∀ e ∈ (sortByKey dueKey (collectDueCards store tags now)).take
          (min settings.reviewsPerDay limit), e.type = "review") ∧
      (∀ e ∈ nw, e.type = "new") := by
  have hsorted :
      ((sortByKey dueKey (collectDueCards store tags now)).take
        (min settings.reviewsPerDay limit)).Pairwise
        (fun a b => dueKey a ≤ dueKey b) :=
    List.Pairwise.sublist (List.take_sublist _ _) (sorted_sortByKey dueKey _)
  have htype : ∀ e ∈ (sortByKey dueKey (collectDueCards store tags now)).take
      (min settings.reviewsPerDay limit), e.type = "review" := by
    intro e he
    exact mem_collectDueCards_type store tags now e
      ((sortByKey_perm dueKey _).mem_iff.mp (List.mem_of_mem_take he))
  cases includeNew with
  | false =>
      unfold startStudySession at h
      dsimp only [] at h
      rw [if_pos rfl, if_neg Bool.false_ne_true] at h
      split at h
      · exact absurd h (by simp)
      · rw [Option.some.injEq] at h
        subst h
        exact ⟨[], rfl, hsorted, htype, by simp⟩
  | true =>
      unfold startStudySession at h
      dsimp only [] at h
      rw [if_pos rfl] at h
      rw [if_pos rfl] at h
      split at h
      · split at h
        · exact absurd h (by simp)
        · rw [Option.some.injEq] at h
          subst h
          refine ⟨_, rfl, hsorted, htype, ?_⟩
          intro e he
          exact mem_collectNewCards_type store tags e
            ((hshuffle _).mem_iff.mp (List.mem_of_mem_take he))
      · split at h
        · exact absurd h (by simp)
        · rw [Option.some.injEq] at h
          subst h
          refine ⟨_, rfl, hsorted, htype, ?_⟩
          intro e he
          exact mem_collectNewCards_type store tags e (List.mem_of_mem_take he)

/-- A three-card deck with due dates 300, 100, 200 (store order). -/
def c6DemoCards : List Card :=
  [ { question := "a", due := some (some 300) },
    { question := "b", due := some (some 100) },
    { question := "c", due := some (some 200) } ]

def c6DemoStore : Store :=
  [("p", { pageTitle := "P", cards := some c6DemoCards })]

def c6DemoSettings : Settings :=
  { reviewsPerDay := 100, newCardsPerDay := 20, cardOrderNew := "added" }

/-- The session the code builds for `c6DemoStore`: earliest-due first. -/
def c6DemoSession : Session :=
  { active := true,
    queue :=
      [ { pageId := "p", cardIndex := 1, type := "review", due := some 100 },
        { pageId := "p", cardIndex := 2, type := "review", due := some 200 },
        { pageId := "p", cardIndex := 0, type := "review", due := some 300 } ],
    currentIndex := 0,
    startTime := some 1000 }

/-- Witness for C6: three due cards with `d1 < d2 < d3` (stored out of
order) produce the queue `[d1, d2, d3]`. -/
theorem c6_witness :
    (∃ nw, c6DemoSession.queue =
        (sortByKey dueKey (collectDueCards c6DemoStore [] 1000)).take
          (min c6DemoSettings.reviewsPerDay 50) ++ nw ∧
      ((sortByKey dueKey (collectDueCards c6DemoStore [] 1000)).take
          (min c6DemoSettings.reviewsPerDay 50)).Pairwise
        (fun a b => dueKey a ≤ dueKey b) ∧
      (∀ e ∈ (sortByKey dueKey (collectDueCards c6DemoStore [] 1000)).take
          (min c6DemoSettings.reviewsPerDay 50), e.type = "review") ∧
      (∀ e ∈ nw, e.type = "new")) ∧
    c6DemoSession.queue.map dueKey = [100, 200, 300] :=
  ⟨c6_queue_due_sorted_then_new c6DemoStore c6DemoSettings id
      (fun l => List.Perm.refl l) false 50 [] 1000 c6DemoSession rfl,
    by decide⟩

/-! ## Session completion (claim C7) -/

/-- **C7** (amended): reaching `currentIndex ≥ queue.length` makes
`showStudyCard` signal completion instead of presenting a card, and the
completion adds `round((now - startTime) / 60000)` minutes to the cumulative
`studyTimeMinutes`; however the session is NOT deactivated and the persisted
session is NOT cleared — `showStudyCompletion` leaves `session` and the
persisted session exactly as they were (deactivation happens only through
the explicit exit path). -/
theorem c7_completion_amended (store : Store) (st : AppState) (now t0 : Nat)
    (hidx : st.session.queue.length ≤ st.session.currentIndex)
    (ht : st.session.startTime = some t0) :
    showStudyCard store now st = .completed (showStudyCompletion st now) ∧
    (showStudyCompletion st now).stats.studyTimeMinutes =
      some (jsIntOrZero st.stats.studyTimeMinutes +
        jsRound ((((now : Int) - (t0 : Int) : Int) : Rat) / 60000)) ∧
    (showStudyCompletion st now).session = st.session ∧
    (showStudyCompletion st now).persistedSession = st.persistedSession := by
  refine ⟨?_, ?_, ?_, ?_⟩
  · rw [showStudyCard]
    rw [dif_pos hidx]
  · simp only [showStudyCompletion, ht]
  · simp only [showStudyCompletion, ht]
  · simp only [showStudyCompletion, ht]

/-- A finished session (cursor past the end of a two-card queue). -/
def c7Session : Session :=
  { active := true,
    queue :=
      [ { pageId := "p", cardIndex := 0, type := "review", due := some 0 },
        { pageId := "p", cardIndex := 1, type := "new" } ],
    currentIndex := 2,
    startTime := some 0 }

def c7State : AppState :=
  { session := c7Session, stats := {}, persistedSession := some c7Session }

/-- Counterexample to C7 as stated: at natural completion the code signals
completion and records the study minutes, but the session keeps
`active = true` and the persisted session is still there — nothing marks
`active:false` and nothing clears the stored session. -/
theorem c7_counterexample :
    showStudyCard [] 120000 c7State =
      .completed (showStudyCompletion c7State 120000) ∧
    (showStudyCompletion c7State 120000).stats.studyTimeMinutes = some 2 ∧
    (showStudyCompletion c7State 120000).session.active = true ∧
    (showStudyCompletion c7State 120000).persistedSession = some c7Session := by
  refine ⟨?_, ?_, rfl, rfl⟩
  · rw [showStudyCard]
    rw [dif_pos (by decide)]
  · show some (jsIntOrZero ({} : StudyStats).studyTimeMinutes +
      jsRound ((((120000 : Int) - (0 : Int) : Int) : Rat) / 60000)) = some 2
    norm_num [jsIntOrZero, jsRound]

/-- Witness for C7 (amended): the amended theorem applied at the finished
session above. -/
theorem c7_witness :
    showStudyCard [] 120000 c7State =
      .completed (showStudyCompletion c7State 120000) ∧
    (showStudyCompletion c7State 120000).stats.studyTimeMinutes =
      some (jsIntOrZero c7State.stats.studyTimeMinutes +
        jsRound ((((120000 : Int) - (0 : Int) : Int) : Rat) / 60000)) ∧
    (showStudyCompletion c7State 120000).session = c7State.session ∧
    (showStudyCompletion c7State 120000).persistedSession =
      c7State.persistedSession :=
  c7_completion_amended [] c7State 120000 0 (by decide) rfl

end ONF
